import Mathlib

/-!
Instruction-set feature descriptors: dispatch layer and feature-list parser

A shallow embedding of `runtime/arch/instruction_set_features.cc`.

* `std::string` is `String`, `std::vector<std::string>` is `List String`, an iterator of the
  vector is an index into the list (`end()` is the length), `uint32_t` is `Nat`.
* `std::unique_ptr<const InstructionSetFeatures>` is `Option InstructionSetFeatures`
  (`none` is the null pointer).
* The out-parameter `std::string* error_msg` is threaded: a function takes the text stored
  there before the call and returns the text stored there after it.
* `LOG(FATAL)`, `CHECK` and `DCHECK` failures end the run with `Outcome.fatal`; the `DCHECK`s are
  modelled as enabled (debug build).
* Every call into an architecture class or into the virtual overlay is recorded in `Run.calls`.
* `Split` and `Trim` are defined in other files; the functions of this file take them, with
  the architecture classes, as `Collaborators`, and the theorems hold for all of them. A
  theorem about a feature string that has tokens therefore also assumes that the string is
  not empty, which `Split` alone does not say.
-/

namespace art

/-- The `InstructionSet` enumeration, with the eight tags the source switches over. -/
inductive InstructionSet where
  | kNone
  | kArm
  | kArm64
  | kThumb2
  | kX86
  | kX86_64
  | kMips
  | kMips64
deriving DecidableEq, Repr

/-- The six architecture classes the dispatch layer forwards to
(`ArmInstructionSetFeatures`, `Arm64InstructionSetFeatures`, ...). -/
inductive FeaturesClass where
  | Arm
  | Arm64
  | Mips
  | Mips64
  | X86
  | X86_64
deriving DecidableEq, Repr

/-- A descriptor as seen through the const virtual getters of `InstructionSetFeatures`. -/
structure InstructionSetFeatures where
  GetInstructionSet : InstructionSet
  AsBitmap : Nat
  GetFeatureString : String
deriving DecidableEq, Repr

/-- Result of a call that returns a `unique_ptr` and writes `*error_msg`:
the pointer, and the text in `*error_msg` after the call. -/
abbrev PtrAndMsg := Option InstructionSetFeatures × String

/-- What lives outside this file: the static factories of the six architecture classes, the
virtual overlay `AddFeaturesFromSplitString` of the descriptor, `Split` of `utils.h` and
`android::base::Trim`. -/
structure Collaborators where
  FromVariant : FeaturesClass → String → String → PtrAndMsg
  FromBitmap : FeaturesClass → Nat → Option InstructionSetFeatures
  FromCppDefines : FeaturesClass → Option InstructionSetFeatures
  AddFeaturesFromSplitString : InstructionSetFeatures → List String → String → PtrAndMsg
  Split : String → Char → List String
  Trim : String → String

/-- A call that leaves this file. -/
inductive Call where
  | FromVariant (cls : FeaturesClass) (variant : String)
  | FromBitmap (cls : FeaturesClass) (bitmap : Nat)
  | FromCppDefines (cls : FeaturesClass)
  | AddFeaturesFromSplitString (features : List String)
deriving DecidableEq, Repr

/-- Why a run was cut short. -/
inductive Abort where
  | unimplemented (isa : InstructionSet)
  | check_eq_failed (lhs rhs : Nat)
  | dcheck_failed (condition : String)
  | null_dereference
deriving DecidableEq, Repr

/-- How a run ends: it returns a value, or the process is terminated. -/
inductive Outcome (α : Type) where
  | returned (value : α)
  | fatal (why : Abort)
deriving DecidableEq, Repr

/-- A run of one of the functions of the file: the outside calls it made, in order, and how
it ended. -/
structure Run (α : Type) where
  calls : List Call
  outcome : Outcome α
deriving DecidableEq, Repr

/-! ## Factory dispatch -/

/-- `InstructionSetFeatures::FromVariant`. -/
def FromVariant (c : Collaborators) (isa : InstructionSet) (variant : String)
    (error_msg : String) : Run PtrAndMsg :=
  match isa with
  | .kArm | .kThumb2 =>
    ⟨[.FromVariant .Arm variant], .returned (c.FromVariant .Arm variant error_msg)⟩
  | .kArm64 =>
    ⟨[.FromVariant .Arm64 variant], .returned (c.FromVariant .Arm64 variant error_msg)⟩
  | .kMips =>
    ⟨[.FromVariant .Mips variant], .returned (c.FromVariant .Mips variant error_msg)⟩
  | .kMips64 =>
    ⟨[.FromVariant .Mips64 variant], .returned (c.FromVariant .Mips64 variant error_msg)⟩
  | .kX86 =>
    ⟨[.FromVariant .X86 variant], .returned (c.FromVariant .X86 variant error_msg)⟩
  | .kX86_64 =>
    ⟨[.FromVariant .X86_64 variant], .returned (c.FromVariant .X86_64 variant error_msg)⟩
  | .kNone => ⟨[], .fatal (.unimplemented isa)⟩

/-- The tail of `FromBitmap`: `CHECK_EQ(bitmap, result->AsBitmap()); return result;`.
A null `result` would be dereferenced by the check; the run ends there. -/
def checkBitmap (bitmap : Nat) (result : Option InstructionSetFeatures) :
    Outcome (Option InstructionSetFeatures) :=
  match result with
  | none => .fatal .null_dereference
  | some d =>
    if bitmap = d.AsBitmap then .returned (some d)
    else .fatal (.check_eq_failed bitmap d.AsBitmap)

/-- `InstructionSetFeatures::FromBitmap`. -/
def FromBitmap (c : Collaborators) (isa : InstructionSet) (bitmap : Nat) :
    Run (Option InstructionSetFeatures) :=
  match isa with
  | .kArm | .kThumb2 =>
    ⟨[.FromBitmap .Arm bitmap], checkBitmap bitmap (c.FromBitmap .Arm bitmap)⟩
  | .kArm64 =>
    ⟨[.FromBitmap .Arm64 bitmap], checkBitmap bitmap (c.FromBitmap .Arm64 bitmap)⟩
  | .kMips =>
    ⟨[.FromBitmap .Mips bitmap], checkBitmap bitmap (c.FromBitmap .Mips bitmap)⟩
  | .kMips64 =>
    ⟨[.FromBitmap .Mips64 bitmap], checkBitmap bitmap (c.FromBitmap .Mips64 bitmap)⟩
  | .kX86 =>
    ⟨[.FromBitmap .X86 bitmap], checkBitmap bitmap (c.FromBitmap .X86 bitmap)⟩
  | .kX86_64 =>
    ⟨[.FromBitmap .X86_64 bitmap], checkBitmap bitmap (c.FromBitmap .X86_64 bitmap)⟩
  | .kNone => ⟨[], .fatal (.unimplemented isa)⟩

/-- `InstructionSetFeatures::FromCppDefines`; the build constant `kRuntimeISA` is a parameter. -/
def FromCppDefines (c : Collaborators) (kRuntimeISA : InstructionSet) :
    Run (Option InstructionSetFeatures) :=
  match kRuntimeISA with
  | .kArm | .kThumb2 => ⟨[.FromCppDefines .Arm], .returned (c.FromCppDefines .Arm)⟩
  | .kArm64 => ⟨[.FromCppDefines .Arm64], .returned (c.FromCppDefines .Arm64)⟩
  | .kMips => ⟨[.FromCppDefines .Mips], .returned (c.FromCppDefines .Mips)⟩
  | .kMips64 => ⟨[.FromCppDefines .Mips64], .returned (c.FromCppDefines .Mips64)⟩
  | .kX86 => ⟨[.FromCppDefines .X86], .returned (c.FromCppDefines .X86)⟩
  | .kX86_64 => ⟨[.FromCppDefines .X86_64], .returned (c.FromCppDefines .X86_64)⟩
  | .kNone => ⟨[], .fatal (.unimplemented kRuntimeISA)⟩

/-! ## The feature-list parser -/

/-- The locals of the token loop of `AddFeaturesFromString`. -/
structure LoopState where
  features : List String
  it : Nat
  use_default : Bool
  first : Bool
deriving DecidableEq, Repr

/-- The three messages the parser itself writes to `*error_msg`. -/
def kNoFeatures : String := "No instruction set features specified"

/-- Message of the early return taken when an iteration starts with `use_default` set. -/
def kAfterDefault : String := "Unexpected instruction set features after 'default'"

/-- Message of the early return taken when `default` is met with `first` set. -/
def kBeforeDefault : String := "Unexpected instruction set features before 'default'"

/-- One run of the loop body (the loop condition `it != features.end()` holds):
`Sum.inl msg` is an early `return` of the null pointer with `*error_msg = msg`,
`Sum.inr st` is the state at the end of the iteration. -/
def loopBody (Trim : String → String) (st : LoopState) : String ⊕ LoopState :=
  if st.use_default then
    .inl kAfterDefault
  else
    let feature := Trim (st.features.getD st.it "")
    if feature = "default" then
      if !st.first then
        -- use_default = true; erase = true; it = features.erase(it); first = true
        .inr { features := st.features.eraseIdx st.it, it := st.it,
               use_default := true, first := true }
      else
        .inl kBeforeDefault
    else
      -- erase stays false: ++it; first = true
      .inr { st with it := st.it + 1, first := true }

/-- How the token loop is left. -/
inductive LoopExit where
  | error (msg : String)
  | finished (st : LoopState)
deriving DecidableEq, Repr

/-- The token loop `for (auto it = features.begin(); it != features.end();)`.
`fuel` bounds the number of evaluations of the loop condition; the result carries the number
of times the body ran. -/
def tokenLoop (Trim : String → String) : Nat → LoopState → Option (Nat × LoopExit)
  | 0, _ => none
  | fuel + 1, st =>
    if st.it = st.features.length then
      some (0, .finished st)
    else
      match loopBody Trim st with
      | .inl msg => some (1, .error msg)
      | .inr st' => (tokenLoop Trim fuel st').map fun r => (r.1 + 1, r.2)

/-- What follows the token loop: the `DCHECK` and the call of the overlay. -/
def afterLoop (c : Collaborators) (self : InstructionSetFeatures) (error_msg : String) :
    LoopExit → Run PtrAndMsg
  | .error msg => ⟨[], .returned (none, msg)⟩
  | .finished st =>
    if !st.use_default || st.features.isEmpty then
      ⟨[.AddFeaturesFromSplitString st.features],
        .returned (c.AddFeaturesFromSplitString self st.features error_msg)⟩
    else
      ⟨[], .fatal (.dcheck_failed "!use_default || features.empty()")⟩

/-- `InstructionSetFeatures::AddFeaturesFromString`, called on the descriptor `self`.
The token loop is given one unit of fuel per token and one for the last test of the loop
condition; `none` would mean that this was not enough. -/
def AddFeaturesFromString (c : Collaborators) (self : InstructionSetFeatures)
    (feature_list : String) (error_msg : String) : Option (Run PtrAndMsg) :=
  if feature_list = "" then
    some ⟨[], .returned (none, kNoFeatures)⟩
  else
    let features := c.Split feature_list ','
    (tokenLoop c.Trim (features.length + 1)
        { features := features, it := 0, use_default := false, first := false }).map
      fun r => afterLoop c self error_msg r.2

/-! ## Checked downcasts -/

/-- `AsArmInstructionSetFeatures`: `DCHECK_EQ(kArm, GetInstructionSet())`, then the same
object under its architecture type. -/
def AsArmInstructionSetFeatures (self : InstructionSetFeatures) :
    Outcome InstructionSetFeatures :=
  if InstructionSet.kArm = self.GetInstructionSet then .returned self
  else .fatal (.dcheck_failed "kArm == GetInstructionSet()")

/-- `AsArm64InstructionSetFeatures`: `DCHECK_EQ(kArm64, GetInstructionSet())`. -/
def AsArm64InstructionSetFeatures (self : InstructionSetFeatures) :
    Outcome InstructionSetFeatures :=
  if InstructionSet.kArm64 = self.GetInstructionSet then .returned self
  else .fatal (.dcheck_failed "kArm64 == GetInstructionSet()")

/-- `AsMipsInstructionSetFeatures`: `DCHECK_EQ(kMips, GetInstructionSet())`. -/
def AsMipsInstructionSetFeatures (self : InstructionSetFeatures) :
    Outcome InstructionSetFeatures :=
  if InstructionSet.kMips = self.GetInstructionSet then .returned self
  else .fatal (.dcheck_failed "kMips == GetInstructionSet()")

/-- `AsMips64InstructionSetFeatures`: `DCHECK_EQ(kMips64, GetInstructionSet())`. -/
def AsMips64InstructionSetFeatures (self : InstructionSetFeatures) :
    Outcome InstructionSetFeatures :=
  if InstructionSet.kMips64 = self.GetInstructionSet then .returned self
  else .fatal (.dcheck_failed "kMips64 == GetInstructionSet()")

/-- `AsX86InstructionSetFeatures`:
`DCHECK(kX86 == GetInstructionSet() || kX86_64 == GetInstructionSet())`. -/
def AsX86InstructionSetFeatures (self : InstructionSetFeatures) :
    Outcome InstructionSetFeatures :=
  if InstructionSet.kX86 = self.GetInstructionSet
      ∨ InstructionSet.kX86_64 = self.GetInstructionSet then .returned self
  else .fatal (.dcheck_failed "kX86 == GetInstructionSet() || kX86_64 == GetInstructionSet()")

/-- `AsX86_64InstructionSetFeatures`: `DCHECK_EQ(kX86_64, GetInstructionSet())`. -/
def AsX86_64InstructionSetFeatures (self : InstructionSetFeatures) :
    Outcome InstructionSetFeatures :=
  if InstructionSet.kX86_64 = self.GetInstructionSet then .returned self
  else .fatal (.dcheck_failed "kX86_64 == GetInstructionSet()")

/-! ## The helpers of other files, for concrete runs -/

/-- Modelled from the spec: `isspace` as used by `android::base::Trim`, which is not part of
the sources ("surrounding whitespace"): the six whitespace characters of the C locale. -/
def isspace (ch : Char) : Bool :=
  ch = ' ' || ch = '\t' || ch = '\n' || ch = '\x0b' || ch = '\x0c' || ch = '\r'

/-- Modelled from the spec: `android::base::Trim` of `android-base/strings.h`, which is not
part of the sources: "trim surrounding whitespace from each token". -/
def Trim (s : String) : String :=
  String.mk ((s.data.dropWhile isspace).reverse.dropWhile isspace).reverse

/-- The pieces of a character list between separators; `cur` holds the characters of the piece
being read. A separator ends the piece being read and the end of the list ends the last one. -/
def splitChars (separator : Char) : List Char → List Char → List String
  | [], cur => [String.mk cur]
  | ch :: rest, cur =>
    if ch = separator then String.mk cur :: splitChars separator rest []
    else splitChars separator rest (cur ++ [ch])

/-- Modelled from the spec: `Split` of `utils.h`, whose body is not part of the sources:
"split on `,`". The pieces are the texts between consecutive separators, in order,
whitespace included, so a string always has one piece more than it has separators. -/
def Split (s : String) (separator : Char) : List String :=
  splitChars separator s.data []

/-- An overlay for concrete runs: it keeps the architecture and the bitmap of the baseline and
lists the tokens it was given, each between brackets, in the feature string. -/
def listingOverlay (self : InstructionSetFeatures) (features : List String)
    (error_msg : String) : PtrAndMsg :=
  (some { self with
      GetFeatureString := String.join (features.map fun f => "[" ++ f ++ "]") }, error_msg)

/-- The architecture tag an architecture class gives its descriptors in the concrete
collaborators below. -/
def FeaturesClass.tag : FeaturesClass → InstructionSet
  | .Arm => .kArm
  | .Arm64 => .kArm64
  | .Mips => .kMips
  | .Mips64 => .kMips64
  | .X86 => .kX86
  | .X86_64 => .kX86_64

/-- Concrete collaborators: every class knows the variant `"generic"` only, builds from a
bitmap the descriptor with that bitmap, and the helpers are `Split` and `Trim` above. -/
def sampleCollaborators : Collaborators where
  FromVariant cls variant error_msg :=
    if variant = "generic" then (some ⟨cls.tag, 0, "default"⟩, error_msg)
    else (none, "Unknown variant: " ++ variant)
  FromBitmap cls bitmap := some ⟨cls.tag, bitmap, "default"⟩
  FromCppDefines cls := some ⟨cls.tag, 0, "default"⟩
  AddFeaturesFromSplitString := listingOverlay
  Split := Split
  Trim := Trim

/-- Collaborators whose `FromBitmap` drops the low bit of the bitmap, so that odd bitmaps do
not round-trip. -/
def lossyCollaborators : Collaborators :=
  { sampleCollaborators with
    FromBitmap := fun cls bitmap => some ⟨cls.tag, bitmap / 2 * 2, "default"⟩ }

/-- A baseline descriptor for concrete runs. -/
def sampleX86 : InstructionSetFeatures := ⟨.kX86, 0, "default"⟩

/-- The run is one of the three error returns of the parser itself: the null pointer, the
parser's message in `*error_msg`, and no call of the overlay. -/
def ParserError (run : Run PtrAndMsg) : Prop :=
  run = ⟨[], .returned (none, kNoFeatures)⟩ ∨
  run = ⟨[], .returned (none, kAfterDefault)⟩ ∨
  run = ⟨[], .returned (none, kBeforeDefault)⟩

/-- The run was terminated. -/
def Outcome.isFatal {α : Type} : Outcome α → Bool
  | .returned _ => false
  | .fatal _ => true

/-- The outcome with its returned value, if any, passed through `f`. -/
def Outcome.map {α β : Type} (f : α → β) : Outcome α → Outcome β
  | .returned value => .returned (f value)
  | .fatal why => .fatal why

/-! ## The parser as a transformer of the memory it can reach -/

/-- The memory a call of `AddFeaturesFromString` reaches through its arguments, its locals
apart: the descriptor it is called on (`*this`) and the string behind `error_msg`. -/
structure Memory where
  self : InstructionSetFeatures
  error_msg : String
deriving DecidableEq, Repr

/-- A callee that is handed `this` and `error_msg`: from the memory it finds and the token
vector, the pointer it returns and the memory it leaves. It can write `*this` as well as
`*error_msg`. -/
abbrev OverlayOn := Memory → List String → Option InstructionSetFeatures × Memory

/-- `InstructionSetFeatures::AddFeaturesFromString` with its writes made explicit: the calls,
the returned pointer, and the memory after the call. The statements `*error_msg = ...` write
the string; the token loop works on the locals `features`, `it`, `use_default`, `first`; the
overlay is called on `this` with `features` and `error_msg`, and the memory after the call is
the memory it leaves. -/
def AddFeaturesFromStringOn (c : Collaborators) (overlay : OverlayOn) (feature_list : String)
    (m : Memory) : Option (Run (Option InstructionSetFeatures) × Memory) :=
  if feature_list = "" then
    some (⟨[], .returned none⟩, { m with error_msg := kNoFeatures })
  else
    let features := c.Split feature_list ','
    match tokenLoop c.Trim (features.length + 1)
        { features := features, it := 0, use_default := false, first := false } with
    | none => none
    | some (_, .error msg) => some (⟨[], .returned none⟩, { m with error_msg := msg })
    | some (_, .finished st) =>
      if !st.use_default || st.features.isEmpty then
        let r := overlay m st.features
        some (⟨[.AddFeaturesFromSplitString st.features], .returned r.1⟩, r.2)
      else
        some (⟨[], .fatal (.dcheck_failed "!use_default || features.empty()")⟩, m)

/-- The overlay of the collaborators as a callee on the memory: it reads `*this` and writes
`*error_msg` only. -/
def Collaborators.overlayOn (c : Collaborators) : OverlayOn := fun m features =>
  let r := c.AddFeaturesFromSplitString m.self features m.error_msg
  (r.1, { m with error_msg := r.2 })

/-- Modelled from the spec: the overlay `AddFeaturesFromSplitString` of the architecture
classes, which are not part of the sources. The spec has it as
`OverlayFlags(baseline, tokens) -> descriptor|failure` with "the baseline is never mutated -
the operation is pure and returns a new value"; the source calls it on `this` from a `const`
method. A callee on the memory keeps to this when it leaves `*this` as it found it. -/
def IsConstOverlay (overlay : OverlayOn) : Prop :=
  ∀ m features, (overlay m features).2.self = m.self

/-- A callee that does not keep to it, for concrete runs: it returns a copy of the descriptor
it is called on and then raises the bitmap of `*this` by one. -/
def writingOverlay : OverlayOn := fun m _ =>
  (some m.self, { m with self := { m.self with AsBitmap := m.self.AsBitmap + 1 } })

/-! ## Variant lookup and printing -/

/-- The search of `std::find` over an array of C strings, `count` elements from the index
`first` on: the index of the first element whose text equals `value`, or the index one past
the last element searched. -/
def findFrom (variants : List String) (value : String) : Nat → Nat → Nat
  | 0, first => first
  | count + 1, first =>
    if variants.getD first "" = value then first
    else findFrom variants value count (first + 1)

/-- `std::find(first, last, value)` with iterators as indices into the array. -/
def find (variants : List String) (first last : Nat) (value : String) : Nat :=
  findFrom variants value (last - first) first

/-- `InstructionSetFeatures::FindVariantInArray`: `begin` is the index 0, `end` is
`begin + num_variants`, and the result is `std::find(begin, end, variant) != end`. -/
def FindVariantInArray (variants : List String) (num_variants : Nat) (variant : String) :
    Bool :=
  let first := 0
  let last := first + num_variants
  find variants first last variant != last

/-- One insertion `os << text` into a stream, the stream being the text written so far. -/
def write (os : String) (text : String) : String :=
  os ++ text

/-- `operator<<(std::ostream&, const InstructionSetFeatures&)`. The insertion of an
`InstructionSet`, defined with the enumeration in another file, writes the text
`isaText isa`. -/
def operator_shl (isaText : InstructionSet → String) (os : String)
    (rhs : InstructionSetFeatures) : String :=
  write (write (write (write os "ISA: ") (isaText rhs.GetInstructionSet))
    " Feature string: ") rhs.GetFeatureString

/-- Modelled from the spec: the text of an architecture tag in the stream (the `<tag>` of
"ISA: <tag> Feature string: <flags>"), whose definition is not part of the sources; used for
concrete runs only. -/
def sampleIsaText : InstructionSet → String
  | .kNone => "none"
  | .kArm => "arm"
  | .kArm64 => "arm64"
  | .kThumb2 => "thumb2"
  | .kX86 => "x86"
  | .kX86_64 => "x86_64"
  | .kMips => "mips"
  | .kMips64 => "mips64"

/-! ## The token loop, case by case -/

theorem getD_at_length (pre post : List String) (t d : String) :
    (pre ++ t :: post).getD pre.length d = t := by
  induction pre with
  | nil => rfl
  | cons p pre ih => simpa using ih

/-- Once the first token is behind and no `default` was consumed, the loop walks over tokens
that do not trim to `default` one by one and leaves the vector as it is. -/
theorem tokenLoop_scan_clean (Trim : String → String) (post : List String) :
    ∀ (pre : List String) (fuel : Nat), post.length < fuel →
      (∀ t ∈ post, Trim t ≠ "default") →
      tokenLoop Trim fuel ⟨pre ++ post, pre.length, false, true⟩ =
        some (post.length, .finished ⟨pre ++ post, (pre ++ post).length, false, true⟩) := by
  induction post with
  | nil =>
    intro pre fuel hf _
    obtain ⟨f, rfl⟩ : ∃ f, fuel = f + 1 := ⟨fuel - 1, by simp at hf; omega⟩
    simp [tokenLoop]
  | cons t post ih =>
    intro pre fuel hf hclean
    obtain ⟨f, rfl⟩ : ∃ f, fuel = f + 1 := ⟨fuel - 1, by simp at hf; omega⟩
    have ht : Trim t ≠ "default" := hclean t (List.mem_cons_self _ _)
    have hrest : ∀ u ∈ post, Trim u ≠ "default" :=
      fun u hu => hclean u (List.mem_cons_of_mem _ hu)
    have hlen : post.length < f := by simp at hf; omega
    have hstep := ih (pre ++ [t]) f hlen hrest
    simp only [List.append_assoc, List.singleton_append, List.length_append,
      List.length_singleton] at hstep
    have hne : pre.length ≠ (pre ++ t :: post).length := by simp
    simp only [tokenLoop, loopBody, getD_at_length, hne, if_false, Bool.false_eq_true, ht]
    simp [hstep]

/-- Once the first token is behind and no `default` was consumed, a later token that trims
to `default` ends the loop with the "before" message, after at most one run of the body per
remaining token. -/
theorem tokenLoop_scan_default (Trim : String → String) (post : List String) :
    ∀ (pre : List String) (fuel : Nat), post.length < fuel →
      (∃ t ∈ post, Trim t = "default") →
      ∃ n, 1 ≤ n ∧ n ≤ post.length ∧
        tokenLoop Trim fuel ⟨pre ++ post, pre.length, false, true⟩ =
          some (n, .error kBeforeDefault) := by
  induction post with
  | nil =>
    intro pre fuel _ h
    obtain ⟨t, ht, _⟩ := h
    simp at ht
  | cons t post ih =>
    intro pre fuel hf h
    obtain ⟨f, rfl⟩ : ∃ f, fuel = f + 1 := ⟨fuel - 1, by simp at hf; omega⟩
    by_cases ht : Trim t = "default"
    · have hne : pre.length ≠ (pre ++ t :: post).length := by simp
      refine ⟨1, le_refl _, by simp, ?_⟩
      simp only [tokenLoop, loopBody, getD_at_length, hne, if_false, Bool.false_eq_true, ht]
      simp
    · have hrest : ∃ u ∈ post, Trim u = "default" := by
        obtain ⟨u, hu, hd⟩ := h
        rcases List.mem_cons.mp hu with rfl | hu
        · exact absurd hd ht
        · exact ⟨u, hu, hd⟩
      have hlen : post.length < f := by simp at hf; omega
      obtain ⟨n, h1, h2, hrun⟩ := ih (pre ++ [t]) f hlen hrest
      simp only [List.append_assoc, List.singleton_append, List.length_append,
        List.length_singleton] at hrun
      refine ⟨n + 1, by omega, by simp; omega, ?_⟩
      have hne : pre.length ≠ (pre ++ t :: post).length := by simp
      simp only [tokenLoop, loopBody, getD_at_length, hne, if_false, Bool.false_eq_true, ht]
      simp [hrun]

/-- The loop on a vector none of whose tokens trims to `default`: the body runs once per
token and the vector is left as it is. -/
theorem tokenLoop_no_default (Trim : String → String) (toks : List String)
    (h : ∀ t ∈ toks, Trim t ≠ "default") :
    tokenLoop Trim (toks.length + 1) ⟨toks, 0, false, false⟩ =
      some (toks.length, .finished ⟨toks, toks.length, false, !toks.isEmpty⟩) := by
  cases toks with
  | nil => simp [tokenLoop]
  | cons t rest =>
    have ht : Trim t ≠ "default" := h t (List.mem_cons_self _ _)
    have hrest : ∀ u ∈ rest, Trim u ≠ "default" :=
      fun u hu => h u (List.mem_cons_of_mem _ hu)
    have hscan := tokenLoop_scan_clean Trim rest [t] (rest.length + 1) (by omega) hrest
    simp only [List.singleton_append, List.length_singleton] at hscan
    rw [List.length_cons, tokenLoop]
    simp only [loopBody, List.length_cons, List.getD_cons_zero, if_false,
      Bool.false_eq_true, ht]
    simp [hscan]

/-- The loop on a vector whose only token trims to `default`: the token is erased. -/
theorem tokenLoop_sole_default (Trim : String → String) (t : String)
    (ht : Trim t = "default") :
    tokenLoop Trim ([t].length + 1) ⟨[t], 0, false, false⟩ =
      some (1, .finished ⟨[], 0, true, true⟩) := by
  simp [tokenLoop, loopBody, ht]

/-- The loop on a vector whose first token trims to `default` and that has a second token:
the second run of the body returns the "after" message. -/
theorem tokenLoop_after_default (Trim : String → String) (t u : String) (rest : List String)
    (ht : Trim t = "default") :
    tokenLoop Trim ((t :: u :: rest).length + 1) ⟨t :: u :: rest, 0, false, false⟩ =
      some (2, .error kAfterDefault) := by
  simp [tokenLoop, loopBody, ht]

/-- The loop on a vector whose first token does not trim to `default` while a later one
does: it returns the "before" message. -/
theorem tokenLoop_before_default (Trim : String → String) (t : String) (rest : List String)
    (ht : Trim t ≠ "default") (h : ∃ u ∈ rest, Trim u = "default") :
    ∃ n, 2 ≤ n ∧ n ≤ (t :: rest).length ∧
      tokenLoop Trim ((t :: rest).length + 1) ⟨t :: rest, 0, false, false⟩ =
        some (n, .error kBeforeDefault) := by
  obtain ⟨n, h1, h2, hscan⟩ :=
    tokenLoop_scan_default Trim rest [t] (rest.length + 1) (by omega) h
  simp only [List.singleton_append, List.length_singleton] at hscan
  refine ⟨n + 1, by omega, by simp; omega, ?_⟩
  rw [List.length_cons, tokenLoop]
  simp only [loopBody, List.length_cons, List.getD_cons_zero, if_false,
    Bool.false_eq_true, ht]
  simp [hscan]

/-! ## `AddFeaturesFromString`, case by case -/

/-- A non-empty string: the result is what follows the loop, applied to the way the loop on
the split vector was left. -/
theorem AddFeaturesFromString_of_loop (c : Collaborators) (self : InstructionSetFeatures)
    (feature_list error_msg : String) (hne : feature_list ≠ "") (n : Nat) (exit : LoopExit)
    (hloop : tokenLoop c.Trim ((c.Split feature_list ',').length + 1)
      ⟨c.Split feature_list ',', 0, false, false⟩ = some (n, exit)) :
    AddFeaturesFromString c self feature_list error_msg =
      some (afterLoop c self error_msg exit) := by
  unfold AddFeaturesFromString
  rw [if_neg hne]
  simp only [hloop, Option.map_some']

/-- The empty string: the early return, before anything is split. -/
theorem AddFeaturesFromString_empty (c : Collaborators) (self : InstructionSetFeatures)
    (error_msg : String) :
    AddFeaturesFromString c self "" error_msg = some ⟨[], .returned (none, kNoFeatures)⟩ := by
  simp [AddFeaturesFromString]

/-- No token trims to `default`: the overlay is called with the vector as `Split` filled it. -/
theorem AddFeaturesFromString_no_default (c : Collaborators) (self : InstructionSetFeatures)
    (feature_list error_msg : String) (hne : feature_list ≠ "")
    (h : ∀ t ∈ c.Split feature_list ',', c.Trim t ≠ "default") :
    AddFeaturesFromString c self feature_list error_msg =
      some ⟨[.AddFeaturesFromSplitString (c.Split feature_list ',')],
        .returned (c.AddFeaturesFromSplitString self (c.Split feature_list ',') error_msg)⟩ := by
  rw [AddFeaturesFromString_of_loop c self feature_list error_msg hne _ _
    (tokenLoop_no_default c.Trim _ h)]
  simp [afterLoop]

/-- The only token trims to `default`: the overlay is called with the empty vector. -/
theorem AddFeaturesFromString_sole_default (c : Collaborators) (self : InstructionSetFeatures)
    (feature_list error_msg t : String) (hne : feature_list ≠ "")
    (hsplit : c.Split feature_list ',' = [t]) (ht : c.Trim t = "default") :
    AddFeaturesFromString c self feature_list error_msg =
      some ⟨[.AddFeaturesFromSplitString []],
        .returned (c.AddFeaturesFromSplitString self [] error_msg)⟩ := by
  rw [AddFeaturesFromString_of_loop c self feature_list error_msg hne 1
    (.finished ⟨[], 0, true, true⟩) (by rw [hsplit]; exact tokenLoop_sole_default c.Trim t ht)]
  simp [afterLoop]

/-- The first token trims to `default` and another token follows: the "after" error. -/
theorem AddFeaturesFromString_after_default (c : Collaborators)
    (self : InstructionSetFeatures) (feature_list error_msg t u : String) (rest : List String)
    (hne : feature_list ≠ "") (hsplit : c.Split feature_list ',' = t :: u :: rest)
    (ht : c.Trim t = "default") :
    AddFeaturesFromString c self feature_list error_msg =
      some ⟨[], .returned (none, kAfterDefault)⟩ := by
  rw [AddFeaturesFromString_of_loop c self feature_list error_msg hne 2
    (.error kAfterDefault)
    (by rw [hsplit]; exact tokenLoop_after_default c.Trim t u rest ht)]
  simp [afterLoop]

/-- The first token does not trim to `default`, a later one does: the "before" error. -/
theorem AddFeaturesFromString_before_default (c : Collaborators)
    (self : InstructionSetFeatures) (feature_list error_msg t : String) (rest : List String)
    (hne : feature_list ≠ "") (hsplit : c.Split feature_list ',' = t :: rest)
    (ht : c.Trim t ≠ "default") (h : ∃ u ∈ rest, c.Trim u = "default") :
    AddFeaturesFromString c self feature_list error_msg =
      some ⟨[], .returned (none, kBeforeDefault)⟩ := by
  obtain ⟨n, _, _, hrun⟩ := tokenLoop_before_default c.Trim t rest ht h
  rw [AddFeaturesFromString_of_loop c self feature_list error_msg hne n
    (.error kBeforeDefault) (by rw [hsplit]; exact hrun)]
  simp [afterLoop]

/-- The five cases above leave nothing out: a non-empty string either has no token trimming
to `default`, or a sole token that does, or a first token that does and a second token, or
a first token that does not and a later one that does. -/
theorem split_cases (Trim : String → String) (toks : List String) :
    (∀ t ∈ toks, Trim t ≠ "default") ∨
    (∃ t, toks = [t] ∧ Trim t = "default") ∨
    (∃ t u rest, toks = t :: u :: rest ∧ Trim t = "default") ∨
    (∃ t rest, toks = t :: rest ∧ Trim t ≠ "default" ∧ ∃ u ∈ rest, Trim u = "default") := by
  cases toks with
  | nil => left; simp
  | cons t rest =>
    by_cases ht : Trim t = "default"
    · cases rest with
      | nil => right; left; exact ⟨t, rfl, ht⟩
      | cons u rest => right; right; left; exact ⟨t, u, rest, rfl, ht⟩
    · by_cases hr : ∃ u ∈ rest, Trim u = "default"
      · right; right; right; exact ⟨t, rest, rfl, ht, hr⟩
      · left
        intro x hx
        rcases List.mem_cons.mp hx with rfl | hx
        · exact ht
        · exact fun hd => hr ⟨x, hx, hd⟩

/-! ## The feature-list parser: what the overlay is handed, and the `default` rule -/

/-- C1 (as the code has it): on a non-empty feature string the run always returns, and when
it is not one of the parser's error returns the overlay is called once, with the vector
exactly as `Split` filled it - the tokens in order and NOT trimmed, `Trim` being applied only
to the copy that is compared with `default` - or with the empty vector when the sole token
trims to `default`; what the overlay returns is returned. -/
theorem C1_overlay_receives_untrimmed_tokens (c : Collaborators)
    (self : InstructionSetFeatures) (feature_list error_msg : String)
    (hne : feature_list ≠ "") :
    ∃ run, AddFeaturesFromString c self feature_list error_msg = some run ∧
      (¬ ParserError run →
        (run = ⟨[.AddFeaturesFromSplitString (c.Split feature_list ',')],
            .returned (c.AddFeaturesFromSplitString self (c.Split feature_list ',')
              error_msg)⟩ ∧
          ∀ t ∈ c.Split feature_list ',', c.Trim t ≠ "default") ∨
        (run = ⟨[.AddFeaturesFromSplitString []],
            .returned (c.AddFeaturesFromSplitString self [] error_msg)⟩ ∧
          ∃ t, c.Split feature_list ',' = [t] ∧ c.Trim t = "default")) := by
  rcases split_cases c.Trim (c.Split feature_list ',') with
    h | ⟨t, hs, ht⟩ | ⟨t, u, rest, hs, ht⟩ | ⟨t, rest, hs, ht, hr⟩
  · exact ⟨_, AddFeaturesFromString_no_default c self feature_list error_msg hne h,
      fun _ => Or.inl ⟨rfl, h⟩⟩
  · exact ⟨_, AddFeaturesFromString_sole_default c self feature_list error_msg t hne hs ht,
      fun _ => Or.inr ⟨rfl, t, hs, ht⟩⟩
  · exact ⟨_, AddFeaturesFromString_after_default c self feature_list error_msg t u rest
      hne hs ht, fun hp => absurd (Or.inr (Or.inl rfl)) hp⟩
  · exact ⟨_, AddFeaturesFromString_before_default c self feature_list error_msg t rest
      hne hs ht hr, fun hp => absurd (Or.inr (Or.inr rfl)) hp⟩

/-- C1, at `" sse4 , avx "`. -/
theorem C1_overlay_receives_untrimmed_tokens_witness :
    " sse4 , avx " ≠ "" ∧
    ∃ run, AddFeaturesFromString sampleCollaborators sampleX86 " sse4 , avx " "" = some run ∧
      (¬ ParserError run →
        (run = ⟨[.AddFeaturesFromSplitString (sampleCollaborators.Split " sse4 , avx " ',')],
            .returned (sampleCollaborators.AddFeaturesFromSplitString sampleX86
              (sampleCollaborators.Split " sse4 , avx " ',') "")⟩ ∧
          ∀ t ∈ sampleCollaborators.Split " sse4 , avx " ',',
            sampleCollaborators.Trim t ≠ "default") ∨
        (run = ⟨[.AddFeaturesFromSplitString []],
            .returned (sampleCollaborators.AddFeaturesFromSplitString sampleX86 [] "")⟩ ∧
          ∃ t, sampleCollaborators.Split " sse4 , avx " ',' = [t] ∧
            sampleCollaborators.Trim t = "default")) :=
  ⟨by decide,
    C1_overlay_receives_untrimmed_tokens sampleCollaborators sampleX86 " sse4 , avx " ""
      (by decide)⟩

/-- C1 as stated fails: on `" sse4 , avx "` the parser reports no error and the overlay is
handed `[" sse4 ", " avx "]`, which is neither the trimmed list `["sse4", "avx"]` nor the list
handed over on `"sse4,avx"`. -/
theorem C1_trimmed_tokens_counterexample :
    AddFeaturesFromString sampleCollaborators sampleX86 " sse4 , avx " "" =
      some ⟨[.AddFeaturesFromSplitString [" sse4 ", " avx "]],
        .returned (some ⟨.kX86, 0, "[ sse4 ][ avx ]"⟩, "")⟩ ∧
    AddFeaturesFromString sampleCollaborators sampleX86 "sse4,avx" "" =
      some ⟨[.AddFeaturesFromSplitString ["sse4", "avx"]],
        .returned (some ⟨.kX86, 0, "[sse4][avx]"⟩, "")⟩ ∧
    (Split " sse4 , avx " ',').map Trim = ["sse4", "avx"] ∧
    [" sse4 ", " avx "] ≠ ["sse4", "avx"] := by
  decide

/-- C2: when the first token of a feature string trims to `default` and at least one more
token follows, whatever it is, `AddFeaturesFromString` returns the null pointer with
"Unexpected instruction set features after 'default'" and the overlay is not called. -/
theorem C2_token_after_default_is_rejected (c : Collaborators)
    (self : InstructionSetFeatures) (feature_list error_msg t u : String) (rest : List String)
    (hne : feature_list ≠ "") (hsplit : c.Split feature_list ',' = t :: u :: rest)
    (ht : c.Trim t = "default") :
    AddFeaturesFromString c self feature_list error_msg =
      some ⟨[], .returned (none, "Unexpected instruction set features after 'default'")⟩ :=
  AddFeaturesFromString_after_default c self feature_list error_msg t u rest hne hsplit ht

/-- C2, at `"default,sse4"` and at `"default,default"`. -/
theorem C2_token_after_default_is_rejected_witness :
    AddFeaturesFromString sampleCollaborators sampleX86 "default,sse4" "" =
      some ⟨[], .returned (none, "Unexpected instruction set features after 'default'")⟩ ∧
    AddFeaturesFromString sampleCollaborators sampleX86 "default,default" "" =
      some ⟨[], .returned (none, "Unexpected instruction set features after 'default'")⟩ :=
  ⟨C2_token_after_default_is_rejected sampleCollaborators sampleX86 "default,sse4" ""
      "default" "sse4" [] (by decide) (by decide) (by decide),
    C2_token_after_default_is_rejected sampleCollaborators sampleX86 "default,default" ""
      "default" "default" [] (by decide) (by decide) (by decide)⟩

/-- C3: when the first token of a feature string does not trim to `default` and a later
token does, `AddFeaturesFromString` returns the null pointer with
"Unexpected instruction set features before 'default'" and the overlay is not called. -/
theorem C3_default_after_a_token_is_rejected (c : Collaborators)
    (self : InstructionSetFeatures) (feature_list error_msg t : String) (rest : List String)
    (hne : feature_list ≠ "") (hsplit : c.Split feature_list ',' = t :: rest)
    (ht : c.Trim t ≠ "default") (hlater : ∃ u ∈ rest, c.Trim u = "default") :
    AddFeaturesFromString c self feature_list error_msg =
      some ⟨[], .returned (none, "Unexpected instruction set features before 'default'")⟩ :=
  AddFeaturesFromString_before_default c self feature_list error_msg t rest hne hsplit ht
    hlater

/-- C3, at `"sse4, default ,avx"`. -/
theorem C3_default_after_a_token_is_rejected_witness :
    AddFeaturesFromString sampleCollaborators sampleX86 "sse4, default ,avx" "" =
      some ⟨[], .returned (none, "Unexpected instruction set features before 'default'")⟩ :=
  C3_default_after_a_token_is_rejected sampleCollaborators sampleX86 "sse4, default ,avx" ""
    "sse4" [" default ", "avx"] (by decide) (by decide) (by decide)
    ⟨" default ", by decide, by decide⟩

/-- C4: when the only token of a feature string trims to `default`, `AddFeaturesFromString`
calls the overlay once, with the empty vector, and returns what it returns; the comparison
is case-sensitive: an only token that trims to `Default` is handed to the overlay as it is. -/
theorem C4_sole_default_gives_empty_list (c : Collaborators) (self : InstructionSetFeatures)
    (feature_list error_msg t : String) (hne : feature_list ≠ "")
    (hsplit : c.Split feature_list ',' = [t]) :
    (c.Trim t = "default" →
      AddFeaturesFromString c self feature_list error_msg =
        some ⟨[.AddFeaturesFromSplitString []],
          .returned (c.AddFeaturesFromSplitString self [] error_msg)⟩) ∧
    (c.Trim t = "Default" →
      AddFeaturesFromString c self feature_list error_msg =
        some ⟨[.AddFeaturesFromSplitString [t]],
          .returned (c.AddFeaturesFromSplitString self [t] error_msg)⟩) := by
  refine ⟨fun ht =>
    AddFeaturesFromString_sole_default c self feature_list error_msg t hne hsplit ht, ?_⟩
  intro ht
  have hclean : ∀ u ∈ c.Split feature_list ',', c.Trim u ≠ "default" := by
    intro u hu
    rw [hsplit] at hu
    rw [List.mem_singleton.mp hu, ht]
    decide
  have h := AddFeaturesFromString_no_default c self feature_list error_msg hne hclean
  rw [hsplit] at h
  exact h

/-- C4, at `" default "` and at `"Default"`. -/
theorem C4_sole_default_gives_empty_list_witness :
    AddFeaturesFromString sampleCollaborators sampleX86 " default " "" =
      some ⟨[.AddFeaturesFromSplitString []], .returned (some ⟨.kX86, 0, ""⟩, "")⟩ ∧
    AddFeaturesFromString sampleCollaborators sampleX86 "Default" "" =
      some ⟨[.AddFeaturesFromSplitString ["Default"]],
        .returned (some ⟨.kX86, 0, "[Default]"⟩, "")⟩ :=
  ⟨(C4_sole_default_gives_empty_list sampleCollaborators sampleX86 " default " ""
      " default " (by decide) (by decide)).1 (by decide),
    (C4_sole_default_gives_empty_list sampleCollaborators sampleX86 "Default" ""
      "Default" (by decide) (by decide)).2 (by decide)⟩

/-- C5: on the empty string `AddFeaturesFromString` returns the null pointer with
"No instruction set features specified" and the overlay is not called; on a non-empty string
the run returns and, when the overlay was not called, the message is a different one. -/
theorem C5_empty_feature_list_is_rejected (c : Collaborators) (self : InstructionSetFeatures)
    (error_msg : String) :
    AddFeaturesFromString c self "" error_msg =
      some ⟨[], .returned (none, "No instruction set features specified")⟩ ∧
    ∀ feature_list : String, feature_list ≠ "" →
      ∃ run, AddFeaturesFromString c self feature_list error_msg = some run ∧
        (run.calls = [] →
          run.outcome ≠ .returned (none, "No instruction set features specified")) := by
  refine ⟨AddFeaturesFromString_empty c self error_msg, ?_⟩
  intro feature_list hne
  rcases split_cases c.Trim (c.Split feature_list ',') with
    h | ⟨t, hs, ht⟩ | ⟨t, u, rest, hs, ht⟩ | ⟨t, rest, hs, ht, hr⟩
  · exact ⟨_, AddFeaturesFromString_no_default c self feature_list error_msg hne h,
      fun hc => by simp at hc⟩
  · exact ⟨_, AddFeaturesFromString_sole_default c self feature_list error_msg t hne hs ht,
      fun hc => by simp at hc⟩
  · refine ⟨_, AddFeaturesFromString_after_default c self feature_list error_msg t u rest
      hne hs ht, fun _ => ?_⟩
    simp only [ne_eq, Outcome.returned.injEq, Prod.mk.injEq, true_and]
    decide
  · refine ⟨_, AddFeaturesFromString_before_default c self feature_list error_msg t rest
      hne hs ht hr, fun _ => ?_⟩
    simp only [ne_eq, Outcome.returned.injEq, Prod.mk.injEq, true_and]
    decide

/-- C5, at `"sse4,default"`. -/
theorem C5_empty_feature_list_is_rejected_witness :
    "sse4,default" ≠ "" ∧
    ∃ run, AddFeaturesFromString sampleCollaborators sampleX86 "sse4,default" "" = some run ∧
      (run.calls = [] →
        run.outcome ≠ .returned (none, "No instruction set features specified")) :=
  ⟨by decide,
    (C5_empty_feature_list_is_rejected sampleCollaborators sampleX86 "").2 "sse4,default"
      (by decide)⟩

/-- The modelled `Split` always produces at least one piece. -/
theorem splitChars_ne_nil (separator : Char) (chars : List Char) :
    ∀ cur : List Char, splitChars separator chars cur ≠ [] := by
  induction chars with
  | nil => intro cur; simp [splitChars]
  | cons ch rest ih =>
    intro cur
    unfold splitChars
    split
    · simp
    · exact ih _

/-- For every `Split` and `Trim`: on a non-empty feature string that is not rejected by the
parser, the vector handed to the overlay is empty exactly when `Split` produced no token at
all or a sole token that trims to `default`. -/
theorem handed_vector_empty_iff (c : Collaborators)
    (self : InstructionSetFeatures) (feature_list error_msg : String)
    (hne : feature_list ≠ "") :
    ∃ run, AddFeaturesFromString c self feature_list error_msg = some run ∧
      (¬ ParserError run →
        ∃ features, run.calls = [.AddFeaturesFromSplitString features] ∧
          (features = [] ↔
            (c.Split feature_list ',' = [] ∨
              ∃ t, c.Split feature_list ',' = [t] ∧ c.Trim t = "default"))) := by
  rcases split_cases c.Trim (c.Split feature_list ',') with
    h | ⟨t, hs, ht⟩ | ⟨t, u, rest, hs, ht⟩ | ⟨t, rest, hs, ht, hr⟩
  · refine ⟨_, AddFeaturesFromString_no_default c self feature_list error_msg hne h,
      fun _ => ⟨_, rfl, ?_⟩⟩
    constructor
    · exact fun he => Or.inl he
    · rintro (he | ⟨t, hs, ht⟩)
      · exact he
      · exact absurd ht (h t (by rw [hs]; exact List.mem_singleton_self t))
  · exact ⟨_, AddFeaturesFromString_sole_default c self feature_list error_msg t hne hs ht,
      fun _ => ⟨_, rfl, fun _ => Or.inr ⟨t, hs, ht⟩, fun _ => rfl⟩⟩
  · exact ⟨_, AddFeaturesFromString_after_default c self feature_list error_msg t u rest
      hne hs ht, fun hp => absurd (Or.inr (Or.inl rfl)) hp⟩
  · exact ⟨_, AddFeaturesFromString_before_default c self feature_list error_msg t rest
      hne hs ht hr, fun hp => absurd (Or.inr (Or.inr rfl)) hp⟩

/-- C6: with `Split` splitting on `,` as the spec has it, and for every `Trim` and overlay:
on every feature string on which the parser succeeds, the overlay is called once and the
vector it is handed is empty if and only if the input had a sole token and that token trims
to `default`. -/
theorem C6_empty_vector_iff_sole_default (c : Collaborators) (self : InstructionSetFeatures)
    (feature_list error_msg : String) :
    ∃ run, AddFeaturesFromString { c with Split := Split } self feature_list error_msg =
        some run ∧
      (¬ ParserError run →
        ∃ features, run.calls = [.AddFeaturesFromSplitString features] ∧
          (features = [] ↔ ∃ t, Split feature_list ',' = [t] ∧ c.Trim t = "default")) := by
  by_cases hne : feature_list = ""
  · subst hne
    exact ⟨_, AddFeaturesFromString_empty _ self error_msg,
      fun hp => absurd (Or.inl rfl) hp⟩
  · obtain ⟨run, hrun, h⟩ :=
      handed_vector_empty_iff { c with Split := Split } self feature_list error_msg hne
    refine ⟨run, hrun, fun hp => ?_⟩
    obtain ⟨features, hcalls, hiff⟩ := h hp
    refine ⟨features, hcalls, hiff.trans ⟨?_, fun hsole => Or.inr hsole⟩⟩
    rintro (hnil | hsole)
    · exact absurd hnil (splitChars_ne_nil ',' feature_list.data [])
    · exact hsole

/-- C6, at `" default "` (the vector handed over is empty) and at `"sse4"` (it is not). -/
theorem C6_empty_vector_iff_sole_default_witness :
    (∃ run, AddFeaturesFromString sampleCollaborators sampleX86 " default " "" = some run ∧
      ∃ features, run.calls = [.AddFeaturesFromSplitString features] ∧
        (features = [] ↔ ∃ t, Split " default " ',' = [t] ∧ Trim t = "default")) ∧
    (∃ run, AddFeaturesFromString sampleCollaborators sampleX86 "sse4" "" = some run ∧
      ∃ features, run.calls = [.AddFeaturesFromSplitString features] ∧
        (features = [] ↔ ∃ t, Split "sse4" ',' = [t] ∧ Trim t = "default")) := by
  constructor
  · obtain ⟨run, hrun, h⟩ :=
      C6_empty_vector_iff_sole_default sampleCollaborators sampleX86 " default " ""
    have hval : AddFeaturesFromString sampleCollaborators sampleX86 " default " "" =
        some ⟨[.AddFeaturesFromSplitString []], .returned (some ⟨.kX86, 0, ""⟩, "")⟩ := by
      decide
    have hrun' : AddFeaturesFromString sampleCollaborators sampleX86 " default " "" =
        some run := hrun
    have heq := Option.some.inj (hval.symm.trans hrun')
    exact ⟨run, hrun', h (by rw [← heq]; simp [ParserError])⟩
  · obtain ⟨run, hrun, h⟩ :=
      C6_empty_vector_iff_sole_default sampleCollaborators sampleX86 "sse4" ""
    have hval : AddFeaturesFromString sampleCollaborators sampleX86 "sse4" "" =
        some ⟨[.AddFeaturesFromSplitString ["sse4"]],
          .returned (some ⟨.kX86, 0, "[sse4]"⟩, "")⟩ := by
      decide
    have hrun' : AddFeaturesFromString sampleCollaborators sampleX86 "sse4" "" =
        some run := hrun
    have heq := Option.some.inj (hval.symm.trans hrun')
    exact ⟨run, hrun', h (by rw [← heq]; simp [ParserError])⟩

/-! ## Factory dispatch and checked downcasts -/

theorem checkBitmap_returned (bitmap : Nat) (result r : Option InstructionSetFeatures)
    (h : checkBitmap bitmap result = .returned r) :
    ∃ d, r = some d ∧ result = some d ∧ d.AsBitmap = bitmap := by
  cases result with
  | none => simp [checkBitmap] at h
  | some d =>
    by_cases hb : bitmap = d.AsBitmap
    · simp [checkBitmap, hb] at h
      exact ⟨d, h.symm, rfl, hb.symm⟩
    · simp [checkBitmap, hb] at h

theorem checkBitmap_mismatch (bitmap : Nat) (d : InstructionSetFeatures)
    (h : d.AsBitmap ≠ bitmap) :
    checkBitmap bitmap (some d) = .fatal (.check_eq_failed bitmap d.AsBitmap) := by
  simp [checkBitmap, Ne.symm h]

/-- C7: bitmap round trip. Whenever `FromBitmap(isa, b)` returns, it returns a descriptor
whose `AsBitmap()` is `b`; and whenever the descriptor built by the architecture class that
was called has another bitmap, the run ends in the fatal `CHECK_EQ` and returns nothing. -/
theorem C7_FromBitmap_round_trip (c : Collaborators) (isa : InstructionSet) (b : Nat) :
    (∀ r, (FromBitmap c isa b).outcome = .returned r → ∃ d, r = some d ∧ d.AsBitmap = b) ∧
    (∀ cls d, (FromBitmap c isa b).calls = [.FromBitmap cls b] →
      c.FromBitmap cls b = some d → d.AsBitmap ≠ b →
      (FromBitmap c isa b).outcome = .fatal (.check_eq_failed b d.AsBitmap)) := by
  constructor
  · intro r h
    cases isa <;> simp only [FromBitmap] at h <;>
      first
      | exact absurd h (by simp)
      | exact (checkBitmap_returned _ _ _ h).imp fun d hd => ⟨hd.1, hd.2.2⟩
  · intro cls d hcall hd hb
    cases isa <;> simp only [FromBitmap, List.cons.injEq, Call.FromBitmap.injEq, and_true,
        List.nil_eq, reduceCtorEq] at hcall ⊢ <;>
      first
      | exact absurd hcall (by simp)
      | (subst hcall; rw [hd]; exact checkBitmap_mismatch b d hb)

/-- C7, at the bitmap 5: returned by collaborators that keep the bitmap, fatal with
collaborators that drop its low bit. -/
theorem C7_FromBitmap_round_trip_witness :
    (∃ d, some (⟨.kX86, 5, "default"⟩ : InstructionSetFeatures) = some d ∧ d.AsBitmap = 5) ∧
    (FromBitmap lossyCollaborators .kThumb2 5).outcome = .fatal (.check_eq_failed 5 4) :=
  ⟨(C7_FromBitmap_round_trip sampleCollaborators .kX86 5).1 (some ⟨.kX86, 5, "default"⟩)
      (by decide),
    (C7_FromBitmap_round_trip lossyCollaborators .kThumb2 5).2 .Arm ⟨.kArm, 4, "default"⟩
      (by decide) (by decide) (by decide)⟩

/-- C8 (as the code has it): for `AsArm`, `AsArm64`, `AsMips`, `AsMips64` and `AsX86_64` the
assertion passes (the accessor returns the descriptor) exactly when the descriptor carries
the tag of the accessor, and the run is fatal for every other tag; for `AsX86` the assertion
passes exactly when the tag is `kX86` or `kX86_64`, and the run is fatal for every other
tag. -/
theorem C8_view_accessors_check_the_tag (d : InstructionSetFeatures) :
    ((AsArmInstructionSetFeatures d = .returned d ↔ d.GetInstructionSet = .kArm) ∧
      ((AsArmInstructionSetFeatures d).isFatal = true ↔ d.GetInstructionSet ≠ .kArm)) ∧
    ((AsArm64InstructionSetFeatures d = .returned d ↔ d.GetInstructionSet = .kArm64) ∧
      ((AsArm64InstructionSetFeatures d).isFatal = true ↔ d.GetInstructionSet ≠ .kArm64)) ∧
    ((AsMipsInstructionSetFeatures d = .returned d ↔ d.GetInstructionSet = .kMips) ∧
      ((AsMipsInstructionSetFeatures d).isFatal = true ↔ d.GetInstructionSet ≠ .kMips)) ∧
    ((AsMips64InstructionSetFeatures d = .returned d ↔ d.GetInstructionSet = .kMips64) ∧
      ((AsMips64InstructionSetFeatures d).isFatal = true ↔
        d.GetInstructionSet ≠ .kMips64)) ∧
    ((AsX86_64InstructionSetFeatures d = .returned d ↔ d.GetInstructionSet = .kX86_64) ∧
      ((AsX86_64InstructionSetFeatures d).isFatal = true ↔
        d.GetInstructionSet ≠ .kX86_64)) ∧
    ((AsX86InstructionSetFeatures d = .returned d ↔
        (d.GetInstructionSet = .kX86 ∨ d.GetInstructionSet = .kX86_64)) ∧
      ((AsX86InstructionSetFeatures d).isFatal = true ↔
        (d.GetInstructionSet ≠ .kX86 ∧ d.GetInstructionSet ≠ .kX86_64))) := by
  obtain ⟨isa, bitmap, str⟩ := d
  cases isa <;>
    simp [AsArmInstructionSetFeatures, AsArm64InstructionSetFeatures,
      AsMipsInstructionSetFeatures, AsMips64InstructionSetFeatures,
      AsX86InstructionSetFeatures, AsX86_64InstructionSetFeatures, Outcome.isFatal]

/-- C8 as stated fails for `AsX86InstructionSetFeatures`: its assertion passes on a
descriptor whose tag is `kX86_64`, which is not the tag `kX86` of the accessor. -/
theorem C8_AsX86_accepts_x86_64_counterexample :
    AsX86InstructionSetFeatures ⟨.kX86_64, 0, "default"⟩ =
      .returned ⟨.kX86_64, 0, "default"⟩ ∧
    InstructionSet.kX86_64 ≠ InstructionSet.kX86 := by
  decide

/-- C9: for the tag `kNone`, `FromVariant` and `FromBitmap` end in the fatal
`UNIMPLEMENTED(FATAL) << isa` whatever the variant, the bitmap and the collaborators are:
nothing is returned, `*error_msg` is not part of any result, and no collaborator is
called. -/
theorem C9_kNone_is_fatal (c : Collaborators) (variant error_msg : String) (bitmap : Nat) :
    FromVariant c .kNone variant error_msg = ⟨[], .fatal (.unimplemented .kNone)⟩ ∧
    FromBitmap c .kNone bitmap = ⟨[], .fatal (.unimplemented .kNone)⟩ :=
  ⟨rfl, rfl⟩

/-- C10: for every tag but `kNone`, `FromVariant(isa, variant)` makes exactly one call, to
`FromVariant` of the class of that architecture (`ArmInstructionSetFeatures` for both `kArm`
and `kThumb2`), and returns the pointer and the `*error_msg` of that call unchanged; it is
never fatal on such a tag. -/
theorem C10_FromVariant_forwards (c : Collaborators) (variant error_msg : String) :
    FromVariant c .kArm variant error_msg =
      ⟨[.FromVariant .Arm variant], .returned (c.FromVariant .Arm variant error_msg)⟩ ∧
    FromVariant c .kThumb2 variant error_msg =
      ⟨[.FromVariant .Arm variant], .returned (c.FromVariant .Arm variant error_msg)⟩ ∧
    FromVariant c .kArm64 variant error_msg =
      ⟨[.FromVariant .Arm64 variant], .returned (c.FromVariant .Arm64 variant error_msg)⟩ ∧
    FromVariant c .kMips variant error_msg =
      ⟨[.FromVariant .Mips variant], .returned (c.FromVariant .Mips variant error_msg)⟩ ∧
    FromVariant c .kMips64 variant error_msg =
      ⟨[.FromVariant .Mips64 variant], .returned (c.FromVariant .Mips64 variant error_msg)⟩ ∧
    FromVariant c .kX86 variant error_msg =
      ⟨[.FromVariant .X86 variant], .returned (c.FromVariant .X86 variant error_msg)⟩ ∧
    FromVariant c .kX86_64 variant error_msg =
      ⟨[.FromVariant .X86_64 variant], .returned (c.FromVariant .X86_64 variant error_msg)⟩ ∧
    ∀ isa, isa ≠ InstructionSet.kNone →
      ∃ cls, FromVariant c isa variant error_msg =
        ⟨[.FromVariant cls variant], .returned (c.FromVariant cls variant error_msg)⟩ := by
  refine ⟨rfl, rfl, rfl, rfl, rfl, rfl, rfl, ?_⟩
  intro isa hisa
  cases isa
  · exact absurd rfl hisa
  · exact ⟨.Arm, rfl⟩
  · exact ⟨.Arm64, rfl⟩
  · exact ⟨.Arm, rfl⟩
  · exact ⟨.X86, rfl⟩
  · exact ⟨.X86_64, rfl⟩
  · exact ⟨.Mips, rfl⟩
  · exact ⟨.Mips64, rfl⟩

/-- C10, at an unrecognized variant for `kThumb2`: the null pointer and the message of the
ARM class come back unchanged. -/
theorem C10_FromVariant_forwards_witness :
    InstructionSet.kThumb2 ≠ InstructionSet.kNone ∧
    FromVariant sampleCollaborators .kThumb2 "cortex-x" "" =
      ⟨[.FromVariant .Arm "cortex-x"], .returned (none, "Unknown variant: cortex-x")⟩ ∧
    ∃ cls, FromVariant sampleCollaborators .kThumb2 "cortex-x" "" =
      ⟨[.FromVariant cls "cortex-x"],
        .returned (sampleCollaborators.FromVariant cls "cortex-x" "")⟩ :=
  ⟨by decide,
    (C10_FromVariant_forwards sampleCollaborators "cortex-x" "").2.1,
    (C10_FromVariant_forwards sampleCollaborators "cortex-x" "").2.2.2.2.2.2.2 .kThumb2
      (by decide)⟩

/-! ## The token loop as a whole -/

/-- The four ways the token loop on a split vector can go, with the number of runs of its
body. -/
theorem tokenLoop_cases (Trim : String → String) (toks : List String) :
    (tokenLoop Trim (toks.length + 1) ⟨toks, 0, false, false⟩ =
        some (toks.length, .finished ⟨toks, toks.length, false, !toks.isEmpty⟩) ∧
      ∀ t ∈ toks, Trim t ≠ "default") ∨
    (tokenLoop Trim (toks.length + 1) ⟨toks, 0, false, false⟩ =
        some (1, .finished ⟨[], 0, true, true⟩) ∧
      ∃ t, toks = [t] ∧ Trim t = "default") ∨
    (tokenLoop Trim (toks.length + 1) ⟨toks, 0, false, false⟩ =
        some (2, .error kAfterDefault) ∧
      ∃ t u rest, toks = t :: u :: rest ∧ Trim t = "default") ∨
    (∃ n, 2 ≤ n ∧ n ≤ toks.length ∧
      tokenLoop Trim (toks.length + 1) ⟨toks, 0, false, false⟩ =
        some (n, .error kBeforeDefault) ∧
      ∃ t rest, toks = t :: rest ∧ Trim t ≠ "default" ∧ ∃ u ∈ rest, Trim u = "default") := by
  rcases split_cases Trim toks with
    h | ⟨t, hs, ht⟩ | ⟨t, u, rest, hs, ht⟩ | ⟨t, rest, hs, ht, hr⟩
  · exact Or.inl ⟨tokenLoop_no_default Trim toks h, h⟩
  · subst hs
    exact Or.inr (Or.inl ⟨tokenLoop_sole_default Trim t ht, t, rfl, ht⟩)
  · subst hs
    exact Or.inr (Or.inr (Or.inl ⟨tokenLoop_after_default Trim t u rest ht, t, u, rest,
      rfl, ht⟩))
  · subst hs
    obtain ⟨n, h2, hle, hrun⟩ := tokenLoop_before_default Trim t rest ht hr
    exact Or.inr (Or.inr (Or.inr ⟨n, h2, hle, hrun, t, rest, rfl, ht, hr⟩))

/-- One run of the loop body that does not return either advances the iterator and leaves
the vector alone, or erases the element under the iterator and leaves the iterator alone. -/
theorem loopBody_progress (Trim : String → String) (st st' : LoopState)
    (hit : st.it < st.features.length) (h : loopBody Trim st = .inr st') :
    (st'.it = st.it + 1 ∧ st'.features = st.features) ∨
    (st'.it = st.it ∧ st'.features = st.features.eraseIdx st.it ∧
      st'.features.length + 1 = st.features.length) := by
  unfold loopBody at h
  by_cases hu : st.use_default = true
  · simp [hu] at h
  · by_cases hd : Trim (st.features.getD st.it "") = "default"
    · by_cases hf : st.first = true
      · simp only [hu, hd, hf, if_true, if_false, Bool.not_true, Bool.false_eq_true,
          reduceCtorEq] at h
      · simp only [hu, hd, hf, if_false, if_true, Bool.not_false, Bool.false_eq_true,
          Bool.not_eq_true, Sum.inr.injEq] at h
        subst h
        right
        refine ⟨rfl, rfl, ?_⟩
        simp only [List.length_eraseIdx, hit, if_true]
        omega
    · simp only [hu, hd, if_false, Bool.false_eq_true, Sum.inr.injEq] at h
      subst h
      exact Or.inl ⟨rfl, rfl⟩

/-- From any state whose iterator is inside the vector or at its end, the loop ends as soon
as it has one unit of fuel more than the distance to the end, and its body runs at most once
per element of that distance. -/
theorem tokenLoop_terminates (Trim : String → String) :
    ∀ (fuel : Nat) (st : LoopState), st.it ≤ st.features.length →
      st.features.length - st.it < fuel →
      ∃ n exit, tokenLoop Trim fuel st = some (n, exit) ∧
        n ≤ st.features.length - st.it := by
  intro fuel
  induction fuel with
  | zero => intro st _ hf; omega
  | succ f ih =>
    intro st hle hf
    by_cases hend : st.it = st.features.length
    · exact ⟨0, .finished st, by simp [tokenLoop, hend], Nat.zero_le _⟩
    · have hit : st.it < st.features.length := Nat.lt_of_le_of_ne hle hend
      cases hb : loopBody Trim st with
      | inl msg =>
        exact ⟨1, .error msg, by simp [tokenLoop, hend, hb], by omega⟩
      | inr st' =>
        have hstep := loopBody_progress Trim st st' hit hb
        have hle' : st'.it ≤ st'.features.length := by
          rcases hstep with ⟨h1, h2⟩ | ⟨h1, _, h3⟩
          · rw [h1, h2]; omega
          · omega
        have hdist : st'.features.length - st'.it + 1 = st.features.length - st.it := by
          rcases hstep with ⟨h1, h2⟩ | ⟨h1, _, h3⟩
          · rw [h1, h2]; omega
          · omega
        obtain ⟨n, exit, hrun, hn⟩ := ih st' hle' (by omega)
        exact ⟨n + 1, exit, by simp [tokenLoop, hend, hb, hrun], by omega⟩

/-! ## The linear search -/

/-- The search stays within the range it is given. -/
theorem findFrom_le (variants : List String) (value : String) :
    ∀ (count first : Nat), findFrom variants value count first ≤ first + count := by
  intro count
  induction count with
  | zero => intro first; simp [findFrom]
  | succ n ih =>
    intro first
    unfold findFrom
    split
    · omega
    · have := ih (first + 1); omega

/-- The search stops before the end of its range exactly when an element of the range has
the text searched for. -/
theorem findFrom_ne_end (variants : List String) (value : String) :
    ∀ (count first : Nat),
      findFrom variants value count first ≠ first + count ↔
        ∃ i, first ≤ i ∧ i < first + count ∧ variants.getD i "" = value := by
  intro count
  induction count with
  | zero =>
    intro first
    simp only [findFrom, Nat.add_zero, ne_eq, not_true_eq_false, false_iff]
    rintro ⟨i, h1, h2, _⟩
    omega
  | succ n ih =>
    intro first
    unfold findFrom
    by_cases hhit : variants.getD first "" = value
    · rw [if_pos hhit]
      constructor
      · intro _; exact ⟨first, le_refl _, by omega, hhit⟩
      · intro _; omega
    · rw [if_neg hhit]
      have hshift : first + 1 + n = first + (n + 1) := by omega
      rw [← hshift, ih (first + 1)]
      constructor
      · rintro ⟨i, h1, h2, h3⟩
        exact ⟨i, by omega, h2, h3⟩
      · rintro ⟨i, h1, h2, h3⟩
        have hne : i ≠ first := fun he => hhit (he ▸ h3)
        exact ⟨i, by omega, h2, h3⟩

/-! ## Variant lookup, order of the tokens, compile-time defines -/

/-- C11: for a count `num_variants` within the table, `FindVariantInArray` is true exactly
when the candidate is equal, as a whole string and case-sensitively, to one of the first
`num_variants` entries; it is false when `num_variants` is 0. -/
theorem C11_FindVariantInArray_is_membership (variants : List String) (num_variants : Nat)
    (variant : String) (hcount : num_variants ≤ variants.length) :
    (FindVariantInArray variants num_variants variant = true ↔
      ∃ i, i < num_variants ∧ variants[i]? = some variant) ∧
    FindVariantInArray variants 0 variant = false := by
  constructor
  · have key := findFrom_ne_end variants variant num_variants 0
    simp only [Nat.zero_add, Nat.zero_le, true_and] at key
    simp only [FindVariantInArray, find, Nat.zero_add, Nat.sub_zero, bne_iff_ne, key]
    constructor
    · rintro ⟨i, hi, hv⟩
      have hlt : i < variants.length := Nat.lt_of_lt_of_le hi hcount
      rw [List.getD_eq_getElem _ _ hlt] at hv
      exact ⟨i, hi, by rw [List.getElem?_eq_getElem hlt, hv]⟩
    · rintro ⟨i, hi, hv⟩
      have hlt : i < variants.length := Nat.lt_of_lt_of_le hi hcount
      rw [List.getElem?_eq_getElem hlt] at hv
      refine ⟨i, hi, ?_⟩
      rw [List.getD_eq_getElem _ _ hlt]
      exact Option.some.inj hv
  · simp [FindVariantInArray, find, findFrom]

/-- C11, on a table of three names searched over its first two entries. -/
theorem C11_FindVariantInArray_is_membership_witness :
    (FindVariantInArray ["cortex-a7", "krait", "denver"] 2 "krait" = true ↔
      ∃ i, i < 2 ∧ ["cortex-a7", "krait", "denver"][i]? = some "krait") ∧
    FindVariantInArray ["cortex-a7", "krait", "denver"] 0 "krait" = false :=
  C11_FindVariantInArray_is_membership ["cortex-a7", "krait", "denver"] 2 "krait"
    (by decide)

/-- C12: on a non-empty feature string none of whose tokens trims to `default`, the run is
not a parser error and the overlay is called once with the very vector `Split` produced: as
many tokens, in the same order, repeated tokens kept. -/
theorem C12_tokens_keep_order_and_duplicates (c : Collaborators)
    (self : InstructionSetFeatures) (feature_list error_msg : String)
    (hne : feature_list ≠ "")
    (hclean : ∀ t ∈ c.Split feature_list ',', c.Trim t ≠ "default") :
    ∃ run features, AddFeaturesFromString c self feature_list error_msg = some run ∧
      ¬ ParserError run ∧
      run = ⟨[.AddFeaturesFromSplitString features],
        .returned (c.AddFeaturesFromSplitString self features error_msg)⟩ ∧
      features = c.Split feature_list ',' ∧
      features.length = (c.Split feature_list ',').length := by
  refine ⟨_, c.Split feature_list ',',
    AddFeaturesFromString_no_default c self feature_list error_msg hne hclean, ?_, rfl, rfl,
    rfl⟩
  rintro (h | h | h) <;> simp at h

/-- C12, at `"sse4,sse4"`: both tokens are handed over. -/
theorem C12_tokens_keep_order_and_duplicates_witness :
    ∃ run features,
      AddFeaturesFromString sampleCollaborators sampleX86 "sse4,sse4" "" = some run ∧
      ¬ ParserError run ∧
      run = ⟨[.AddFeaturesFromSplitString features],
        .returned (sampleCollaborators.AddFeaturesFromSplitString sampleX86 features "")⟩ ∧
      features = sampleCollaborators.Split "sse4,sse4" ',' ∧
      features.length = (sampleCollaborators.Split "sse4,sse4" ',').length :=
  C12_tokens_keep_order_and_duplicates sampleCollaborators sampleX86 "sse4,sse4" ""
    (by decide) (by decide)

/-- C13 (as the code has it): for every value of `kRuntimeISA` but `kNone`,
`FromCppDefines` makes one call, to `FromCppDefines` of the class of that architecture
(`ArmInstructionSetFeatures` for both `kArm` and `kThumb2`), returns what it returns and is
not fatal; for `kNone` it ends in the fatal `UNIMPLEMENTED(FATAL) << kRuntimeISA` without
calling any class. -/
theorem C13_FromCppDefines_forwards_unless_kNone (c : Collaborators) :
    FromCppDefines c .kArm = ⟨[.FromCppDefines .Arm], .returned (c.FromCppDefines .Arm)⟩ ∧
    FromCppDefines c .kThumb2 = ⟨[.FromCppDefines .Arm], .returned (c.FromCppDefines .Arm)⟩ ∧
    FromCppDefines c .kArm64 =
      ⟨[.FromCppDefines .Arm64], .returned (c.FromCppDefines .Arm64)⟩ ∧
    FromCppDefines c .kMips = ⟨[.FromCppDefines .Mips], .returned (c.FromCppDefines .Mips)⟩ ∧
    FromCppDefines c .kMips64 =
      ⟨[.FromCppDefines .Mips64], .returned (c.FromCppDefines .Mips64)⟩ ∧
    FromCppDefines c .kX86 = ⟨[.FromCppDefines .X86], .returned (c.FromCppDefines .X86)⟩ ∧
    FromCppDefines c .kX86_64 =
      ⟨[.FromCppDefines .X86_64], .returned (c.FromCppDefines .X86_64)⟩ ∧
    FromCppDefines c .kNone = ⟨[], .fatal (.unimplemented .kNone)⟩ ∧
    ∀ kRuntimeISA, kRuntimeISA ≠ InstructionSet.kNone →
      ∃ cls, FromCppDefines c kRuntimeISA =
        ⟨[.FromCppDefines cls], .returned (c.FromCppDefines cls)⟩ := by
  refine ⟨rfl, rfl, rfl, rfl, rfl, rfl, rfl, rfl, ?_⟩
  intro isa hisa
  cases isa
  · exact absurd rfl hisa
  · exact ⟨.Arm, rfl⟩
  · exact ⟨.Arm64, rfl⟩
  · exact ⟨.Arm, rfl⟩
  · exact ⟨.X86, rfl⟩
  · exact ⟨.X86_64, rfl⟩
  · exact ⟨.Mips, rfl⟩
  · exact ⟨.Mips64, rfl⟩

/-- C13, for a build whose `kRuntimeISA` is `kMips64`. -/
theorem C13_FromCppDefines_forwards_unless_kNone_witness :
    InstructionSet.kMips64 ≠ InstructionSet.kNone ∧
    ∃ cls, FromCppDefines sampleCollaborators .kMips64 =
      ⟨[.FromCppDefines cls], .returned (sampleCollaborators.FromCppDefines cls)⟩ :=
  ⟨by decide,
    (C13_FromCppDefines_forwards_unless_kNone sampleCollaborators).2.2.2.2.2.2.2.2 .kMips64
      (by decide)⟩

/-- C13 as stated fails: `kNone` is a value of `kRuntimeISA`, and for it `FromCppDefines`
is fatal and returns no descriptor. -/
theorem C13_FromCppDefines_kNone_counterexample :
    FromCppDefines sampleCollaborators .kNone = ⟨[], .fatal (.unimplemented .kNone)⟩ ∧
    (FromCppDefines sampleCollaborators .kNone).outcome.isFatal = true := by
  decide

/-! ## Purity, printing, the internal assertion, the failure condition, termination -/

/-- With the overlay of the collaborators as the callee, the calls, the returned pointer and
the final `*error_msg` are those of `AddFeaturesFromString`. -/
theorem AddFeaturesFromStringOn_agrees (c : Collaborators) (feature_list : String)
    (m : Memory) :
    ∃ run m', AddFeaturesFromStringOn c c.overlayOn feature_list m = some (run, m') ∧
      AddFeaturesFromString c m.self feature_list m.error_msg =
        some ⟨run.calls, run.outcome.map fun ptr => (ptr, m'.error_msg)⟩ := by
  by_cases hne : feature_list = ""
  · subst hne
    exact ⟨⟨[], .returned none⟩, { m with error_msg := kNoFeatures },
      by simp [AddFeaturesFromStringOn], by simp [AddFeaturesFromString, Outcome.map]⟩
  · rcases tokenLoop_cases c.Trim (c.Split feature_list ',') with
      ⟨hrun, _⟩ | ⟨hrun, _⟩ | ⟨hrun, _⟩ | ⟨n, _, _, hrun, _⟩
    · refine ⟨⟨[.AddFeaturesFromSplitString (c.Split feature_list ',')],
          .returned (c.overlayOn m (c.Split feature_list ',')).1⟩,
        (c.overlayOn m (c.Split feature_list ',')).2, ?_, ?_⟩
      · simp only [AddFeaturesFromStringOn, hne, if_false, hrun]
        simp
      · rw [AddFeaturesFromString_of_loop c m.self feature_list m.error_msg hne _ _ hrun]
        simp [afterLoop, Outcome.map, Collaborators.overlayOn]
    · refine ⟨⟨[.AddFeaturesFromSplitString []], .returned (c.overlayOn m []).1⟩,
        (c.overlayOn m []).2, ?_, ?_⟩
      · simp only [AddFeaturesFromStringOn, hne, if_false, hrun]
        simp
      · rw [AddFeaturesFromString_of_loop c m.self feature_list m.error_msg hne _ _ hrun]
        simp [afterLoop, Outcome.map, Collaborators.overlayOn]
    · refine ⟨⟨[], .returned none⟩, { m with error_msg := kAfterDefault }, ?_, ?_⟩
      · simp only [AddFeaturesFromStringOn, hne, if_false, hrun]
      · rw [AddFeaturesFromString_of_loop c m.self feature_list m.error_msg hne _ _ hrun]
        simp [afterLoop, Outcome.map]
    · refine ⟨⟨[], .returned none⟩, { m with error_msg := kBeforeDefault }, ?_, ?_⟩
      · simp only [AddFeaturesFromStringOn, hne, if_false, hrun]
      · rw [AddFeaturesFromString_of_loop c m.self feature_list m.error_msg hne _ _ hrun]
        simp [afterLoop, Outcome.map]

/-- The overlay of the collaborators, reading `*this` and writing `*error_msg` only, leaves
`*this` as it found it. -/
theorem overlayOn_isConst (c : Collaborators) : IsConstOverlay c.overlayOn :=
  fun _ _ => rfl

/-- The memory model can tell an overlay that writes `*this`: with `writingOverlay` the
bitmap of the baseline is changed on the path that calls the overlay, and only there. -/
theorem writingOverlay_writes_baseline :
    AddFeaturesFromStringOn sampleCollaborators writingOverlay "sse4,avx" ⟨sampleX86, ""⟩ =
      some (⟨[.AddFeaturesFromSplitString ["sse4", "avx"]], .returned (some sampleX86)⟩,
        ⟨⟨.kX86, 1, "default"⟩, ""⟩) ∧
    AddFeaturesFromStringOn sampleCollaborators writingOverlay "sse4,default" ⟨sampleX86, ""⟩ =
      some (⟨[], .returned none⟩, ⟨sampleX86, kBeforeDefault⟩) := by
  decide

/-- C14: overlay purity, for every `Split`, `Trim` and every callee in the place of the
overlay, including callees that write `*this`. Every call returns. On the paths that end in
a parser error (empty input, the two `default` errors) the overlay is not called and the
baseline is afterwards what it was before. On the remaining path the overlay is called once,
on the memory as the call found it, and the memory after the call is the memory the overlay
leaves. Hence, with an overlay that leaves `*this` alone, as the spec has it, the architecture
tag and the bitmap of the baseline are the same after the call as before it on every path. -/
theorem C14_baseline_is_not_written (c : Collaborators) (overlay : OverlayOn)
    (feature_list : String) (m : Memory) :
    ∃ run m', AddFeaturesFromStringOn c overlay feature_list m = some (run, m') ∧
      ((run.calls = [] ∧ m'.self = m.self) ∨
        (∃ features, run.calls = [.AddFeaturesFromSplitString features] ∧
          run.outcome = .returned (overlay m features).1 ∧
          m' = (overlay m features).2)) ∧
      (IsConstOverlay overlay →
        m'.self.GetInstructionSet = m.self.GetInstructionSet ∧
        m'.self.AsBitmap = m.self.AsBitmap) := by
  by_cases hne : feature_list = ""
  · subst hne
    exact ⟨⟨[], .returned none⟩, { m with error_msg := kNoFeatures },
      by simp [AddFeaturesFromStringOn], Or.inl ⟨rfl, rfl⟩, fun _ => ⟨rfl, rfl⟩⟩
  · rcases tokenLoop_cases c.Trim (c.Split feature_list ',') with
      ⟨hrun, _⟩ | ⟨hrun, _⟩ | ⟨hrun, _⟩ | ⟨n, _, _, hrun, _⟩
    · refine ⟨⟨[.AddFeaturesFromSplitString (c.Split feature_list ',')],
          .returned (overlay m (c.Split feature_list ',')).1⟩,
        (overlay m (c.Split feature_list ',')).2, ?_, Or.inr ⟨_, rfl, rfl, rfl⟩, ?_⟩
      · simp only [AddFeaturesFromStringOn, hne, if_false, hrun]
        simp
      · intro hconst
        rw [hconst m (c.Split feature_list ',')]
        exact ⟨rfl, rfl⟩
    · refine ⟨⟨[.AddFeaturesFromSplitString []], .returned (overlay m []).1⟩,
        (overlay m []).2, ?_, Or.inr ⟨_, rfl, rfl, rfl⟩, ?_⟩
      · simp only [AddFeaturesFromStringOn, hne, if_false, hrun]
        simp
      · intro hconst
        rw [hconst m []]
        exact ⟨rfl, rfl⟩
    · exact ⟨⟨[], .returned none⟩, { m with error_msg := kAfterDefault },
        by simp only [AddFeaturesFromStringOn, hne, if_false, hrun],
        Or.inl ⟨rfl, rfl⟩, fun _ => ⟨rfl, rfl⟩⟩
    · exact ⟨⟨[], .returned none⟩, { m with error_msg := kBeforeDefault },
        by simp only [AddFeaturesFromStringOn, hne, if_false, hrun],
        Or.inl ⟨rfl, rfl⟩, fun _ => ⟨rfl, rfl⟩⟩

/-- C14, at `" sse4 , avx "` with the overlay of the sample collaborators: the baseline keeps
its tag and its bitmap. -/
theorem C14_baseline_is_not_written_witness :
    ∃ run m', AddFeaturesFromStringOn sampleCollaborators sampleCollaborators.overlayOn
        " sse4 , avx " ⟨sampleX86, "old"⟩ = some (run, m') ∧
      m'.self.GetInstructionSet = InstructionSet.kX86 ∧ m'.self.AsBitmap = 0 :=
  (C14_baseline_is_not_written sampleCollaborators sampleCollaborators.overlayOn
      " sse4 , avx " ⟨sampleX86, "old"⟩).imp fun _ h =>
    h.imp fun _ h' => ⟨h'.1, h'.2.2 (fun _ _ => rfl)⟩

/-- C15: what `operator<<` adds to the stream is exactly `"ISA: "`, the text of
`GetInstructionSet()`, `" Feature string: "` and `GetFeatureString()`, in this order, with
nothing before, between or after them. -/
theorem C15_operator_shl_text (isaText : InstructionSet → String) (os : String)
    (rhs : InstructionSetFeatures) :
    operator_shl isaText os rhs =
      os ++ ("ISA: " ++ isaText rhs.GetInstructionSet ++ " Feature string: " ++
        rhs.GetFeatureString) := by
  simp [operator_shl, write, String.append_assoc]

/-- C16: the assertion `DCHECK(!use_default || features.empty())` cannot fail. Whatever the
split vector is, the token loop ends; when it ends without an error and with `use_default`
set, the vector is empty; and no run of `AddFeaturesFromString` is fatal. -/
theorem C16_dcheck_never_fails (c : Collaborators) (self : InstructionSetFeatures)
    (feature_list error_msg : String) (toks : List String) :
    (∃ n exit, tokenLoop c.Trim (toks.length + 1) ⟨toks, 0, false, false⟩ = some (n, exit)) ∧
    (∀ n st, tokenLoop c.Trim (toks.length + 1) ⟨toks, 0, false, false⟩ =
        some (n, .finished st) → st.use_default = true → st.features = []) ∧
    (∃ run, AddFeaturesFromString c self feature_list error_msg = some run ∧
      run.outcome.isFatal = false) := by
  refine ⟨?_, ?_, ?_⟩
  · rcases tokenLoop_cases c.Trim toks with
      ⟨hrun, _⟩ | ⟨hrun, _⟩ | ⟨hrun, _⟩ | ⟨n, _, _, hrun, _⟩
    all_goals exact ⟨_, _, hrun⟩
  · intro n st hfin hdef
    rcases tokenLoop_cases c.Trim toks with
      ⟨hrun, _⟩ | ⟨hrun, _⟩ | ⟨hrun, _⟩ | ⟨k, _, _, hrun, _⟩
    all_goals
      rw [hrun] at hfin
      simp only [Option.some.injEq, Prod.mk.injEq, LoopExit.finished.injEq,
        reduceCtorEq, and_false] at hfin
    · obtain ⟨_, hst⟩ := hfin
      subst hst
      simp at hdef
    · obtain ⟨_, hst⟩ := hfin
      subst hst
      rfl
  · by_cases hne : feature_list = ""
    · subst hne
      exact ⟨_, AddFeaturesFromString_empty c self error_msg, rfl⟩
    · rcases split_cases c.Trim (c.Split feature_list ',') with
        h | ⟨t, hs, ht⟩ | ⟨t, u, rest, hs, ht⟩ | ⟨t, rest, hs, ht, hr⟩
      · exact ⟨_, AddFeaturesFromString_no_default c self feature_list error_msg hne h, rfl⟩
      · exact ⟨_, AddFeaturesFromString_sole_default c self feature_list error_msg t hne hs
          ht, rfl⟩
      · exact ⟨_, AddFeaturesFromString_after_default c self feature_list error_msg t u rest
          hne hs ht, rfl⟩
      · exact ⟨_, AddFeaturesFromString_before_default c self feature_list error_msg t rest
          hne hs ht hr, rfl⟩

/-- C16, at the vector `[" default "]`: the loop ends with `use_default` set and the vector
empty. -/
theorem C16_dcheck_never_fails_witness :
    tokenLoop sampleCollaborators.Trim 2 ⟨[" default "], 0, false, false⟩ =
      some (1, .finished ⟨[], 0, true, true⟩) ∧
    (⟨[], 0, true, true⟩ : LoopState).features = [] :=
  ⟨by decide,
    (C16_dcheck_never_fails sampleCollaborators sampleX86 " default " "" [" default "]).2.1
      1 ⟨[], 0, true, true⟩ (by decide) rfl⟩

/-- C17: the exact failure condition. Every run of `AddFeaturesFromString` returns; it is a
parser error (the null pointer, the overlay not called) exactly when the string is empty or
its split has at least two tokens one of which trims to `default`; in every other case the
overlay is called once and its pointer and `*error_msg` are returned unchanged. -/
theorem C17_exact_failure_condition (c : Collaborators) (self : InstructionSetFeatures)
    (feature_list error_msg : String) :
    ∃ run, AddFeaturesFromString c self feature_list error_msg = some run ∧
      ((run.calls = [] ∧ ∃ msg, run.outcome = .returned (none, msg)) ↔
        (feature_list = "" ∨
          (2 ≤ (c.Split feature_list ',').length ∧
            ∃ t ∈ c.Split feature_list ',', c.Trim t = "default"))) ∧
      (¬ (feature_list = "" ∨
          (2 ≤ (c.Split feature_list ',').length ∧
            ∃ t ∈ c.Split feature_list ',', c.Trim t = "default")) →
        ∃ features, run = ⟨[.AddFeaturesFromSplitString features],
          .returned (c.AddFeaturesFromSplitString self features error_msg)⟩) := by
  by_cases hne : feature_list = ""
  · subst hne
    refine ⟨_, AddFeaturesFromString_empty c self error_msg, ?_, ?_⟩
    · exact ⟨fun _ => Or.inl rfl, fun _ => ⟨rfl, _, rfl⟩⟩
    · exact fun h => absurd (Or.inl rfl) h
  · rcases split_cases c.Trim (c.Split feature_list ',') with
      h | ⟨t, hs, ht⟩ | ⟨t, u, rest, hs, ht⟩ | ⟨t, rest, hs, ht, hr⟩
    · refine ⟨_, AddFeaturesFromString_no_default c self feature_list error_msg hne h,
        ?_, fun _ => ⟨_, rfl⟩⟩
      constructor
      · rintro ⟨hc, _⟩
        simp at hc
      · rintro (he | ⟨_, u, hu, hd⟩)
        · exact absurd he hne
        · exact absurd hd (h u hu)
    · refine ⟨_, AddFeaturesFromString_sole_default c self feature_list error_msg t hne hs
        ht, ?_, fun _ => ⟨_, rfl⟩⟩
      constructor
      · rintro ⟨hc, _⟩
        simp at hc
      · rintro (he | ⟨hlen, _⟩)
        · exact absurd he hne
        · rw [hs] at hlen
          simp at hlen
    · refine ⟨_, AddFeaturesFromString_after_default c self feature_list error_msg t u rest
        hne hs ht, ?_, ?_⟩
      · refine ⟨fun _ => Or.inr ⟨?_, t, ?_, ht⟩, fun _ => ⟨rfl, _, rfl⟩⟩
        · rw [hs]; simp
        · rw [hs]; exact List.mem_cons_self _ _
      · intro hnot
        refine absurd (Or.inr ⟨?_, t, ?_, ht⟩) hnot
        · rw [hs]; simp
        · rw [hs]; exact List.mem_cons_self _ _
    · obtain ⟨u, hu, hd⟩ := hr
      have hlen : 2 ≤ (c.Split feature_list ',').length := by
        rw [hs]
        cases rest with
        | nil => simp at hu
        | cons _ _ => simp
      have hmem : u ∈ c.Split feature_list ',' := by
        rw [hs]; exact List.mem_cons_of_mem _ hu
      refine ⟨_, AddFeaturesFromString_before_default c self feature_list error_msg t rest
        hne hs ht ⟨u, hu, hd⟩, ?_, ?_⟩
      · exact ⟨fun _ => Or.inr ⟨hlen, u, hmem, hd⟩, fun _ => ⟨rfl, _, rfl⟩⟩
      · exact fun hnot => absurd (Or.inr ⟨hlen, u, hmem, hd⟩) hnot

/-- C17, at `"sse4,avx"`: not a parser error, so the overlay is called once and its result
is returned. -/
theorem C17_exact_failure_condition_witness :
    ∃ run, AddFeaturesFromString sampleCollaborators sampleX86 "sse4,avx" "" = some run ∧
      ∃ features, run = ⟨[.AddFeaturesFromSplitString features],
        .returned (sampleCollaborators.AddFeaturesFromSplitString sampleX86 features "")⟩ :=
  (C17_exact_failure_condition sampleCollaborators sampleX86 "sse4,avx" "").imp
    fun _ h => ⟨h.1, h.2.2 (by decide)⟩

/-- C18: the token loop terminates. A run of the body that does not return either advances
the iterator or erases one element, so the distance to the end goes down; from any state the
loop ends within one unit of fuel more than that distance; and on a split vector the body
runs at most once per token, and at most twice when the first token trims to `default`. -/
theorem C18_token_loop_terminates (Trim : String → String) :
    (∀ st st', st.it < st.features.length → loopBody Trim st = .inr st' →
      ((st'.it = st.it + 1 ∧ st'.features = st.features) ∨
        (st'.it = st.it ∧ st'.features.length + 1 = st.features.length)) ∧
      st'.features.length - st'.it < st.features.length - st.it) ∧
    (∀ fuel st, st.it ≤ st.features.length → st.features.length - st.it < fuel →
      ∃ n exit, tokenLoop Trim fuel st = some (n, exit) ∧
        n ≤ st.features.length - st.it) ∧
    (∀ toks : List String,
      ∃ n exit, tokenLoop Trim (toks.length + 1) ⟨toks, 0, false, false⟩ = some (n, exit) ∧
        n ≤ toks.length ∧
        (∀ t rest, toks = t :: rest → Trim t = "default" → n ≤ 2)) := by
  refine ⟨?_, tokenLoop_terminates Trim, ?_⟩
  · intro st st' hit hb
    rcases loopBody_progress Trim st st' hit hb with ⟨h1, h2⟩ | ⟨h1, _, h3⟩
    · exact ⟨Or.inl ⟨h1, h2⟩, by rw [h1, h2]; omega⟩
    · exact ⟨Or.inr ⟨h1, h3⟩, by omega⟩
  · intro toks
    rcases tokenLoop_cases Trim toks with
      ⟨hrun, hclean⟩ | ⟨hrun, t, hs, ht⟩ | ⟨hrun, t, u, rest, hs, ht⟩ |
      ⟨n, h2, hle, hrun, t, rest, hs, ht, _⟩
    · refine ⟨_, _, hrun, le_refl _, ?_⟩
      intro t rest hs ht
      exact absurd ht (hclean t (by rw [hs]; exact List.mem_cons_self _ _))
    · exact ⟨_, _, hrun, by rw [hs]; simp, fun _ _ _ _ => by omega⟩
    · exact ⟨_, _, hrun, by rw [hs]; simp, fun _ _ _ _ => le_refl _⟩
    · refine ⟨_, _, hrun, hle, ?_⟩
      intro t' rest' hs' ht'
      rw [hs] at hs'
      have : t = t' := (List.cons.inj hs').1
      exact absurd (this ▸ ht') ht

/-- C18, on the vector `["default", "a", "b"]`: the loop ends after at most two runs of its
body. -/
theorem C18_token_loop_terminates_witness :
    ∃ n exit, tokenLoop Trim 4 ⟨["default", "a", "b"], 0, false, false⟩ = some (n, exit) ∧
      n ≤ 3 ∧ n ≤ 2 :=
  ((C18_token_loop_terminates Trim).2.2 ["default", "a", "b"]).imp fun _ hn =>
    hn.imp fun _ h => ⟨h.1, h.2.1, h.2.2 "default" ["a", "b"] rfl (by decide)⟩

end art
